import Mathlib

/-!
Verification of the dispenso `TaskSet` / `ConcurrentTaskSet` layer
(src/dispenso/task_set.h) against its specification.

The schedule front ends are translated directly from `task_set.h`.  The shared
`TaskSetBase` engine (outstanding-task counter, exception slot, packaged-task
wrapper, `wait` / `tryWait`) lives in `dispenso/detail/task_set_impl.h`, which
is not part of the sources at hand; those pieces are modelled from the spec and
are marked as such in their doc comments.

The embedding is sequential: the pool queue holds the packaged tasks handed to
the pool, a `poolStep` operation stands for a pool worker popping and running
one task, and arbitrary interleavings of producers and workers are arbitrary
linearized sequences of operations.  A trace of counter events (one `inc` or
`dec` per atomic counter operation the code performs) makes the increment /
decrement discipline observable, not only the counter's final value.
-/

namespace Dispenso

/-- Decidable equality of task outcomes. -/
instance {E : Type} [DecidableEq E] : DecidableEq (Except E Unit) := fun a b =>
  match a, b with
  | Except.ok (), Except.ok () => isTrue rfl
  | Except.error x, Except.error y =>
    if h : x = y then isTrue (congrArg Except.error h)
    else isFalse (fun hc => h (Except.error.inj hc))
  | Except.ok _, Except.error _ => isFalse (fun hc => Except.noConfusion hc)
  | Except.error _, Except.ok _ => isFalse (fun hc => Except.noConfusion hc)

/-- A user closure, modelled by an identifier and by its outcome when invoked:
`Except.ok ()` if it returns normally, `Except.error e` if it raises `e`. -/
structure Task (E : Type) where
  id : Nat
  run : Except E Unit
deriving DecidableEq

/-- One atomic operation on OutstandingCount, tagged with the id of the task it
accounts for. -/
inductive CounterEvent where
  | inc (id : Nat)
  | dec (id : Nat)
deriving DecidableEq

/-- Shared state of a `TaskSet` / `ConcurrentTaskSet` together with the slice of
the backing pool that belongs to it: `outstandingTaskCount` and
`taskSetLoadFactor` mirror `TaskSetBase::outstandingTaskCount_` and
`TaskSetBase::taskSetLoadFactor_`, `exceptionSlot` the single-assignment
exception container, `queue` the packaged tasks enqueued to the pool and not
yet executed, `finished` the ids of tasks that have completed execution (on any
thread), `events` the trace of counter operations performed so far, and
`tokenOwner` the object the producer token is bound to. -/
structure CoreState (E : Type) where
  outstandingTaskCount : Nat
  taskSetLoadFactor : Nat
  exceptionSlot : Option E
  queue : List (Task E)
  finished : List Nat
  events : List CounterEvent
  tokenOwner : Nat
deriving DecidableEq

variable {E : Type}

/-- Modelled from the spec: the `TaskSetBase` constructor
(dispenso/detail/task_set_impl.h, not under the sources at hand) sets the load
threshold to `stealingLoadMultiplier × poolWorkerCount`, fixed at
construction. -/
def mkTaskSet (E : Type) (owner poolWorkerCount stealingLoadMultiplier : Nat) :
    CoreState E :=
  { outstandingTaskCount := 0
    taskSetLoadFactor := stealingLoadMultiplier * poolWorkerCount
    exceptionSlot := none
    queue := []
    finished := []
    events := []
    tokenOwner := owner }

/-- The failure a task raises, if any. -/
def Task.failure (t : Task E) : Option E :=
  match t.run with
  | Except.ok _ => none
  | Except.error e => some e

/-- First-writer-wins combination of the exception slot with a later store. -/
def slotOr (a b : Option E) : Option E :=
  match a with
  | some x => some x
  | none => b

/-- Modelled from the spec: store a failure into the exception slot only if the
slot is still empty (first failure wins, later failures are discarded). -/
def trySetCurrentException (s : CoreState E) (e : E) : CoreState E :=
  match s.exceptionSlot with
  | some _ => s
  | none => { s with exceptionSlot := some e }

/-- Modelled from the spec: the packaged-task wrapper increments
OutstandingCount immediately before the task is handed to the pool, and records
the increment in the event trace. -/
def packageTask (s : CoreState E) (t : Task E) : CoreState E :=
  { s with
    outstandingTaskCount := s.outstandingTaskCount + 1
    events := s.events ++ [CounterEvent.inc t.id] }

/-- Failure-capture half of the packaged-task wrapper: if the closure raised a
failure, try to store it into the exception slot; otherwise leave the state
unchanged. -/
def storeFailure (s : CoreState E) (t : Task E) : CoreState E :=
  match t.run with
  | Except.ok _ => s
  | Except.error e => trySetCurrentException s e

/-- Completion half of the packaged-task wrapper: record the task as finished
and decrement OutstandingCount exactly once, on success and on failure alike. -/
def finishTask (s : CoreState E) (t : Task E) : CoreState E :=
  { s with
    outstandingTaskCount := s.outstandingTaskCount - 1
    finished := s.finished ++ [t.id]
    events := s.events ++ [CounterEvent.dec t.id] }

/-- Modelled from the spec: invoking a packaged task runs the closure, catches
any failure (storing it into the exception slot if empty) and unconditionally
decrements OutstandingCount on the way out. -/
def runPackaged (s : CoreState E) (t : Task E) : CoreState E :=
  finishTask (storeFailure s t) t

/-- Append a unit of work to the pool queue. -/
def poolEnqueue (s : CoreState E) (t : Task E) : CoreState E :=
  { s with queue := s.queue ++ [t] }

/-- Modelled from the spec: pool operation `schedule(token, unit)` — enqueue
`unit` through the producer-token fast path. -/
def poolScheduleToken (s : CoreState E) (t : Task E) : CoreState E :=
  poolEnqueue s t

/-- Modelled from the spec: pool operation `schedule(unit)` — enqueue `unit`
through the thread-safe multi-producer path. -/
def poolSchedule (s : CoreState E) (t : Task E) : CoreState E :=
  poolEnqueue s t

/-- Modelled from the spec: pool operation `schedule(unit, ForceQueuingTag)` —
enqueue unconditionally, bypassing any pool-internal load shedding. -/
def poolScheduleForce (s : CoreState E) (t : Task E) : CoreState E :=
  poolEnqueue s t

/-- Modelled from the spec: pool operation `schedule(token, unit,
ForceQueuingTag)` — the token-based unconditional enqueue used by
`TaskSet::schedule(f, ForceQueuingTag)`. -/
def poolScheduleTokenForce (s : CoreState E) (t : Task E) : CoreState E :=
  poolEnqueue s t

/-- Outcome of a `schedule` call: the closure ran inline on the calling thread
and returned, it ran inline and its failure propagated out of `schedule`, or
the packaged task was enqueued to the pool. -/
inductive ScheduleResult (E : Type) where
  | inlineOk (s : CoreState E)
  | inlineThrew (e : E) (s : CoreState E)
  | queued (s : CoreState E)
deriving DecidableEq

/-- The state a `schedule` call leaves behind. -/
def ScheduleResult.state : ScheduleResult E → CoreState E
  | ScheduleResult.inlineOk s => s
  | ScheduleResult.inlineThrew _ s => s
  | ScheduleResult.queued s => s

/-- Whether the `schedule` call ran the closure inline on the calling thread. -/
def ScheduleResult.ranInline : ScheduleResult E → Bool
  | ScheduleResult.inlineOk _ => true
  | ScheduleResult.inlineThrew _ _ => true
  | ScheduleResult.queued _ => false

/-- Inline execution as performed by `schedule`'s over-threshold branch: the
raw closure `f()` is invoked directly — it is not packaged, so no counter
event occurs and the exception slot is not involved; a failure leaves the call
as `inlineThrew`. -/
def runInline (s : CoreState E) (t : Task E) : ScheduleResult E :=
  match t.run with
  | Except.ok _ =>
      ScheduleResult.inlineOk { s with finished := s.finished ++ [t.id] }
  | Except.error e =>
      ScheduleResult.inlineThrew e { s with finished := s.finished ++ [t.id] }

/-- Mirrors `TaskSet::schedule(F&&)` (src/dispenso/task_set.h, lines 59-66):
if the outstanding count read at the check exceeds the load factor, run `f()`
inline on the calling thread; otherwise enqueue the packaged task through the
producer token. -/
def TaskSet.schedule (s : CoreState E) (t : Task E) : ScheduleResult E :=
  if s.outstandingTaskCount > s.taskSetLoadFactor then
    runInline s t
  else
    ScheduleResult.queued (poolScheduleToken (packageTask s t) t)

/-- Mirrors `TaskSet::schedule(F&&, ForceQueuingTag)` (src/dispenso/task_set.h,
lines 79-82): always enqueue the packaged task through the producer token, with
no admission check. -/
def TaskSet.scheduleForce (s : CoreState E) (t : Task E) : CoreState E :=
  poolScheduleTokenForce (packageTask s t) t

/-- Mirrors `ConcurrentTaskSet::schedule(F&&, bool)` (src/dispenso/task_set.h,
lines 163-172): over-threshold calls run `f()` inline; otherwise the packaged
task is enqueued, with `ForceQueuingTag` when `skipRecheck` is set and through
the plain multi-producer path when it is not. -/
def ConcurrentTaskSet.schedule (s : CoreState E) (t : Task E)
    (skipRecheck : Bool) : ScheduleResult E :=
  if s.outstandingTaskCount > s.taskSetLoadFactor then
    runInline s t
  else if skipRecheck then
    ScheduleResult.queued (poolScheduleForce (packageTask s t) t)
  else
    ScheduleResult.queued (poolSchedule (packageTask s t) t)

/-- Mirrors `ConcurrentTaskSet::schedule(F&&, ForceQueuingTag)`
(src/dispenso/task_set.h, lines 185-188): always enqueue the packaged task,
with no admission check. -/
def ConcurrentTaskSet.scheduleForce (s : CoreState E) (t : Task E) :
    CoreState E :=
  poolScheduleForce (packageTask s t) t

/-- Run a list of packaged tasks in order on the calling thread. -/
def runAll (s : CoreState E) : List (Task E) → CoreState E
  | [] => s
  | t :: ts => runAll (runPackaged s t) ts

/-- Modelled from the spec: `TaskSetBase` `wait`
(dispenso/detail/task_set_impl.h, not under the sources at hand) blocks until
OutstandingCount reaches 0, stealing and running pending items while waiting;
once the count is 0, if the exception slot is occupied it is cleared and the
captured failure is re-raised on the calling thread.  The returned pair is the
post-state and the failure re-raised, if any. -/
def TaskSetBase.wait (s : CoreState E) : CoreState E × Option E :=
  let s1 := runAll { s with queue := [] } s.queue
  ({ s1 with exceptionSlot := none }, s1.exceptionSlot)

/-- Steal and run at most `k` pending items from the pool queue. -/
def stealUpTo (s : CoreState E) : Nat → CoreState E
  | 0 => s
  | k + 1 =>
    match s.queue with
    | [] => s
    | t :: rest => stealUpTo (runPackaged { s with queue := rest } t) k

/-- Modelled from the spec: `TaskSetBase` `tryWait(maxToExecute)`
(dispenso/detail/task_set_impl.h, not under the sources at hand) executes at
most `maxToExecute` stolen items, then re-checks the count; it returns `true`
iff the count reached 0, performing the same exception re-raise as `wait` in
that case, and returns `false` otherwise without raising anything.  The result
is the post-state, the failure re-raised if any, and the boolean return. -/
def TaskSetBase.tryWait (s : CoreState E) (maxToExecute : Nat) :
    CoreState E × Option E × Bool :=
  let s1 := stealUpTo s maxToExecute
  if s1.outstandingTaskCount = 0 then
    ({ s1 with exceptionSlot := none }, s1.exceptionSlot, true)
  else
    (s1, none, false)

/-- Mirrors `TaskSet::~TaskSet` (src/dispenso/task_set.h, lines 109-111): the
destructor performs `wait()`. -/
def TaskSet.destruct (s : CoreState E) : CoreState E × Option E :=
  TaskSetBase.wait s

/-- Mirrors `ConcurrentTaskSet::~ConcurrentTaskSet` (src/dispenso/task_set.h,
lines 215-217): the destructor performs `wait()`. -/
def ConcurrentTaskSet.destruct (s : CoreState E) : CoreState E × Option E :=
  TaskSetBase.wait s

/-- Mirrors `TaskSet(TaskSet&&) = delete` (src/dispenso/task_set.h, line 43):
the move constructor is deleted. -/
def TaskSet.moveConstructible : Bool := false

/-- Mirrors `TaskSet& operator=(TaskSet&&) = delete` (src/dispenso/task_set.h,
line 44): move assignment is deleted. -/
def TaskSet.moveAssignable : Bool := false

/-- With a user-declared (deleted) move constructor, the copy constructor of
`TaskSet` is implicitly defined as deleted by the C++ rules, so the type is not
copyable either. -/
def TaskSet.copyConstructible : Bool := false

/-- Mirrors `ConcurrentTaskSet(ConcurrentTaskSet&&) = delete`
(src/dispenso/task_set.h, line 144). -/
def ConcurrentTaskSet.moveConstructible : Bool := false

/-- Mirrors `ConcurrentTaskSet& operator=(ConcurrentTaskSet&&) = delete`
(src/dispenso/task_set.h, line 145). -/
def ConcurrentTaskSet.moveAssignable : Bool := false

/-- With a user-declared (deleted) move constructor, the copy constructor of
`ConcurrentTaskSet` is implicitly defined as deleted by the C++ rules. -/
def ConcurrentTaskSet.copyConstructible : Bool := false

/-- One linearized step of the system: a producer calling one of the four
schedule entry points, or a pool worker popping and running one queued task. -/
inductive Op (E : Type) where
  | schedT (t : Task E)
  | schedTForce (t : Task E)
  | schedC (t : Task E) (skipRecheck : Bool)
  | schedCForce (t : Task E)
  | poolStep

/-- Apply one step to the state.  Schedule outcomes collapse to their resulting
state: an inline failure propagates out of `schedule` to the producer, which
then continues. -/
def applyOp (s : CoreState E) : Op E → CoreState E
  | Op.schedT t => (TaskSet.schedule s t).state
  | Op.schedTForce t => TaskSet.scheduleForce s t
  | Op.schedC t b => (ConcurrentTaskSet.schedule s t b).state
  | Op.schedCForce t => ConcurrentTaskSet.scheduleForce s t
  | Op.poolStep =>
    match s.queue with
    | [] => s
    | t :: rest => runPackaged { s with queue := rest } t

/-- Apply a linearized sequence of steps. -/
def applyOps (s : CoreState E) (ops : List (Op E)) : CoreState E :=
  ops.foldl applyOp s

/-- Ids of the tasks a single step schedules. -/
def opScheduledIds : Op E → List Nat
  | Op.schedT t => [t.id]
  | Op.schedTForce t => [t.id]
  | Op.schedC t _ => [t.id]
  | Op.schedCForce t => [t.id]
  | Op.poolStep => []

/-- Ids of all tasks scheduled across a sequence of steps. -/
def scheduledIds : List (Op E) → List Nat
  | [] => []
  | op :: ops => opScheduledIds op ++ scheduledIds ops

/-- Ids of the tasks currently pending in the pool queue. -/
def queueIds (s : CoreState E) : List Nat :=
  s.queue.map Task.id

/-- First failure among a list of packaged tasks, in execution order. -/
def firstError : List (Task E) → Option E
  | [] => none
  | t :: ts =>
    match t.run with
    | Except.ok _ => firstError ts
    | Except.error e => some e

theorem slotOr_none (a : Option E) : slotOr a none = a := by
  cases a <;> simp [slotOr]

theorem slotOr_assoc (a b c : Option E) :
    slotOr (slotOr a b) c = slotOr a (slotOr b c) := by
  cases a <;> cases b <;> simp [slotOr]

theorem firstError_cons (t : Task E) (ts : List (Task E)) :
    firstError (t :: ts) = slotOr t.failure (firstError ts) := by
  cases h : t.run <;> simp [firstError, Task.failure, slotOr, h]

theorem firstError_isSome (ts : List (Task E)) :
    (∃ t ∈ ts, (Task.failure t).isSome = true) → (firstError ts).isSome = true := by
  induction ts with
  | nil => rintro ⟨t, ht, _⟩; cases ht
  | cons t ts ih =>
    rintro ⟨u, hu, hfail⟩
    rw [firstError_cons]
    rcases List.mem_cons.mp hu with rfl | hmem
    · cases h : u.failure with
      | none => rw [h] at hfail; cases hfail
      | some e => simp [h, slotOr]
    · cases h : t.failure with
      | none => simp [h, slotOr]; exact ih ⟨u, hmem, hfail⟩
      | some e => simp [h, slotOr]

@[simp] theorem runPackaged_count (s : CoreState E) (t : Task E) :
    (runPackaged s t).outstandingTaskCount = s.outstandingTaskCount - 1 := by
  unfold runPackaged finishTask storeFailure trySetCurrentException
  cases t.run <;> cases h : s.exceptionSlot <;> simp [h]

@[simp] theorem runPackaged_queue (s : CoreState E) (t : Task E) :
    (runPackaged s t).queue = s.queue := by
  unfold runPackaged finishTask storeFailure trySetCurrentException
  cases t.run <;> cases h : s.exceptionSlot <;> simp [h]

@[simp] theorem runPackaged_finished (s : CoreState E) (t : Task E) :
    (runPackaged s t).finished = s.finished ++ [t.id] := by
  unfold runPackaged finishTask storeFailure trySetCurrentException
  cases t.run <;> cases h : s.exceptionSlot <;> simp [h]

@[simp] theorem runPackaged_events (s : CoreState E) (t : Task E) :
    (runPackaged s t).events = s.events ++ [CounterEvent.dec t.id] := by
  unfold runPackaged finishTask storeFailure trySetCurrentException
  cases t.run <;> cases h : s.exceptionSlot <;> simp [h]

@[simp] theorem runPackaged_slot (s : CoreState E) (t : Task E) :
    (runPackaged s t).exceptionSlot = slotOr s.exceptionSlot t.failure := by
  unfold runPackaged finishTask storeFailure trySetCurrentException
    Task.failure slotOr
  cases t.run <;> cases h : s.exceptionSlot <;> simp [h]

@[simp] theorem runPackaged_loadFactor (s : CoreState E) (t : Task E) :
    (runPackaged s t).taskSetLoadFactor = s.taskSetLoadFactor := by
  unfold runPackaged finishTask storeFailure trySetCurrentException
  cases t.run <;> cases h : s.exceptionSlot <;> simp [h]

@[simp] theorem runPackaged_tokenOwner (s : CoreState E) (t : Task E) :
    (runPackaged s t).tokenOwner = s.tokenOwner := by
  unfold runPackaged finishTask storeFailure trySetCurrentException
  cases t.run <;> cases h : s.exceptionSlot <;> simp [h]

theorem runAll_count (ts : List (Task E)) : ∀ s : CoreState E,
    (runAll s ts).outstandingTaskCount = s.outstandingTaskCount - ts.length := by
  induction ts with
  | nil => intro s; simp [runAll]
  | cons t ts ih => intro s; simp [runAll, ih]; omega

theorem runAll_queue (ts : List (Task E)) : ∀ s : CoreState E,
    (runAll s ts).queue = s.queue := by
  induction ts with
  | nil => intro s; simp [runAll]
  | cons t ts ih => intro s; simp [runAll, ih]

theorem runAll_finished (ts : List (Task E)) : ∀ s : CoreState E,
    (runAll s ts).finished = s.finished ++ ts.map Task.id := by
  induction ts with
  | nil => intro s; simp [runAll]
  | cons t ts ih => intro s; simp [runAll, ih]

theorem runAll_events (ts : List (Task E)) : ∀ s : CoreState E,
    (runAll s ts).events
      = s.events ++ ts.map (fun t => CounterEvent.dec t.id) := by
  induction ts with
  | nil => intro s; simp [runAll]
  | cons t ts ih => intro s; simp [runAll, ih]

theorem runAll_slot (ts : List (Task E)) : ∀ s : CoreState E,
    (runAll s ts).exceptionSlot = slotOr s.exceptionSlot (firstError ts) := by
  induction ts with
  | nil => intro s; simp [runAll, firstError, slotOr_none]
  | cons t ts ih =>
    intro s
    simp [runAll, ih, firstError_cons, slotOr_assoc]

theorem runAll_loadFactor (ts : List (Task E)) : ∀ s : CoreState E,
    (runAll s ts).taskSetLoadFactor = s.taskSetLoadFactor := by
  induction ts with
  | nil => intro s; simp [runAll]
  | cons t ts ih => intro s; simp [runAll, ih]

theorem runAll_tokenOwner (ts : List (Task E)) : ∀ s : CoreState E,
    (runAll s ts).tokenOwner = s.tokenOwner := by
  induction ts with
  | nil => intro s; simp [runAll]
  | cons t ts ih => intro s; simp [runAll, ih]

theorem stealUpTo_queue (k : Nat) : ∀ s : CoreState E,
    (stealUpTo s k).queue = s.queue.drop k := by
  induction k with
  | zero => intro s; simp [stealUpTo]
  | succ k ih =>
    intro s
    cases hq : s.queue with
    | nil => simp [stealUpTo, hq]
    | cons t rest => simp [stealUpTo, hq, ih]

theorem stealUpTo_count (k : Nat) : ∀ s : CoreState E,
    (stealUpTo s k).outstandingTaskCount
      = s.outstandingTaskCount - min k s.queue.length := by
  induction k with
  | zero => intro s; simp [stealUpTo]
  | succ k ih =>
    intro s
    cases hq : s.queue with
    | nil => simp [stealUpTo, hq]
    | cons t rest => simp [stealUpTo, hq, ih]; omega

theorem stealUpTo_finished (k : Nat) : ∀ s : CoreState E,
    (stealUpTo s k).finished
      = s.finished ++ (s.queue.take k).map Task.id := by
  induction k with
  | zero => intro s; simp [stealUpTo]
  | succ k ih =>
    intro s
    cases hq : s.queue with
    | nil => simp [stealUpTo, hq]
    | cons t rest => simp [stealUpTo, hq, ih]

theorem stealUpTo_slot (k : Nat) : ∀ s : CoreState E,
    (stealUpTo s k).exceptionSlot
      = slotOr s.exceptionSlot (firstError (s.queue.take k)) := by
  induction k with
  | zero => intro s; simp [stealUpTo, firstError, slotOr_none]
  | succ k ih =>
    intro s
    cases hq : s.queue with
    | nil => simp [stealUpTo, hq, firstError, slotOr_none]
    | cons t rest =>
      simp [stealUpTo, hq, ih, firstError_cons, slotOr_assoc]

theorem stealUpTo_tokenOwner (k : Nat) : ∀ s : CoreState E,
    (stealUpTo s k).tokenOwner = s.tokenOwner := by
  induction k with
  | zero => intro s; simp [stealUpTo]
  | succ k ih =>
    intro s
    cases hq : s.queue with
    | nil => simp [stealUpTo, hq]
    | cons t rest => simp [stealUpTo, hq, ih]

theorem wait_count (s : CoreState E) :
    (TaskSetBase.wait s).1.outstandingTaskCount
      = s.outstandingTaskCount - s.queue.length := by
  simp [TaskSetBase.wait, runAll_count]

theorem wait_raised (s : CoreState E) :
    (TaskSetBase.wait s).2 = slotOr s.exceptionSlot (firstError s.queue) := by
  simp [TaskSetBase.wait, runAll_slot]

theorem wait_slot (s : CoreState E) :
    (TaskSetBase.wait s).1.exceptionSlot = none := by
  simp [TaskSetBase.wait]

theorem wait_finished (s : CoreState E) :
    (TaskSetBase.wait s).1.finished = s.finished ++ queueIds s := by
  simp [TaskSetBase.wait, runAll_finished, queueIds]

theorem wait_queue (s : CoreState E) :
    (TaskSetBase.wait s).1.queue = [] := by
  simp [TaskSetBase.wait, runAll_queue]

theorem wait_events (s : CoreState E) :
    (TaskSetBase.wait s).1.events
      = s.events ++ s.queue.map (fun t => CounterEvent.dec t.id) := by
  simp [TaskSetBase.wait, runAll_events]

theorem wait_tokenOwner (s : CoreState E) :
    (TaskSetBase.wait s).1.tokenOwner = s.tokenOwner := by
  simp [TaskSetBase.wait, runAll_tokenOwner]

theorem runInline_state (s : CoreState E) (t : Task E) :
    (runInline s t).state = { s with finished := s.finished ++ [t.id] } := by
  cases h : t.run <;> simp [runInline, h, ScheduleResult.state]

theorem runInline_ranInline (s : CoreState E) (t : Task E) :
    (runInline s t).ranInline = true := by
  cases h : t.run <;> simp [runInline, h, ScheduleResult.ranInline]

theorem tsSchedule_over (s : CoreState E) (t : Task E)
    (h : s.outstandingTaskCount > s.taskSetLoadFactor) :
    TaskSet.schedule s t = runInline s t := by
  simp [TaskSet.schedule, h]

theorem tsSchedule_under (s : CoreState E) (t : Task E)
    (h : ¬ s.outstandingTaskCount > s.taskSetLoadFactor) :
    TaskSet.schedule s t
      = ScheduleResult.queued (poolScheduleToken (packageTask s t) t) := by
  simp [TaskSet.schedule, h]

theorem ctsSchedule_over (s : CoreState E) (t : Task E)
    (b : Bool) (h : s.outstandingTaskCount > s.taskSetLoadFactor) :
    ConcurrentTaskSet.schedule s t b = runInline s t := by
  simp [ConcurrentTaskSet.schedule, h]

theorem ctsSchedule_under (s : CoreState E) (t : Task E)
    (b : Bool) (h : ¬ s.outstandingTaskCount > s.taskSetLoadFactor) :
    ConcurrentTaskSet.schedule s t b
      = ScheduleResult.queued (poolEnqueue (packageTask s t) t) := by
  cases b <;>
    simp [ConcurrentTaskSet.schedule, h, poolSchedule, poolScheduleForce]

theorem applyOps_nil (s : CoreState E) : applyOps s [] = s := rfl

theorem applyOps_cons (s : CoreState E) (op : Op E) (ops : List (Op E)) :
    applyOps s (op :: ops) = applyOps (applyOp s op) ops := rfl

theorem applyOp_loadFactor (s : CoreState E) (op : Op E) :
    (applyOp s op).taskSetLoadFactor = s.taskSetLoadFactor := by
  cases op with
  | schedT t =>
    by_cases hc : s.outstandingTaskCount > s.taskSetLoadFactor
    · simp [applyOp, tsSchedule_over s t hc, runInline_state]
    · simp [applyOp, tsSchedule_under s t hc, ScheduleResult.state,
        poolScheduleToken, poolEnqueue, packageTask]
  | schedTForce t =>
    simp [applyOp, TaskSet.scheduleForce, poolScheduleTokenForce, poolEnqueue,
      packageTask]
  | schedC t b =>
    by_cases hc : s.outstandingTaskCount > s.taskSetLoadFactor
    · simp [applyOp, ctsSchedule_over s t b hc, runInline_state]
    · simp [applyOp, ctsSchedule_under s t b hc,
        ScheduleResult.state, poolEnqueue, packageTask]
  | schedCForce t =>
    simp [applyOp, ConcurrentTaskSet.scheduleForce, poolScheduleForce,
      poolEnqueue, packageTask]
  | poolStep =>
    cases hq : s.queue with
    | nil => simp [applyOp, hq]
    | cons t rest => simp [applyOp, hq]

theorem applyOp_tokenOwner (s : CoreState E) (op : Op E) :
    (applyOp s op).tokenOwner = s.tokenOwner := by
  cases op with
  | schedT t =>
    by_cases hc : s.outstandingTaskCount > s.taskSetLoadFactor
    · simp [applyOp, tsSchedule_over s t hc, runInline_state]
    · simp [applyOp, tsSchedule_under s t hc, ScheduleResult.state,
        poolScheduleToken, poolEnqueue, packageTask]
  | schedTForce t =>
    simp [applyOp, TaskSet.scheduleForce, poolScheduleTokenForce, poolEnqueue,
      packageTask]
  | schedC t b =>
    by_cases hc : s.outstandingTaskCount > s.taskSetLoadFactor
    · simp [applyOp, ctsSchedule_over s t b hc, runInline_state]
    · simp [applyOp, ctsSchedule_under s t b hc,
        ScheduleResult.state, poolEnqueue, packageTask]
  | schedCForce t =>
    simp [applyOp, ConcurrentTaskSet.scheduleForce, poolScheduleForce,
      poolEnqueue, packageTask]
  | poolStep =>
    cases hq : s.queue with
    | nil => simp [applyOp, hq]
    | cons t rest => simp [applyOp, hq]

theorem applyOp_countEqLen (s : CoreState E) (op : Op E)
    (h : s.outstandingTaskCount = s.queue.length) :
    (applyOp s op).outstandingTaskCount = (applyOp s op).queue.length := by
  cases op with
  | schedT t =>
    by_cases hc : s.outstandingTaskCount > s.taskSetLoadFactor
    · simp [applyOp, tsSchedule_over s t hc, runInline_state, h]
    · simp [applyOp, tsSchedule_under s t hc, ScheduleResult.state,
        poolScheduleToken, poolEnqueue, packageTask, h]
  | schedTForce t =>
    simp [applyOp, TaskSet.scheduleForce, poolScheduleTokenForce, poolEnqueue,
      packageTask, h]
  | schedC t b =>
    by_cases hc : s.outstandingTaskCount > s.taskSetLoadFactor
    · simp [applyOp, ctsSchedule_over s t b hc, runInline_state,
        h]
    · simp [applyOp, ctsSchedule_under s t b hc,
        ScheduleResult.state, poolEnqueue, packageTask, h]
  | schedCForce t =>
    simp [applyOp, ConcurrentTaskSet.scheduleForce, poolScheduleForce,
      poolEnqueue, packageTask, h]
  | poolStep =>
    cases hq : s.queue with
    | nil => simp [applyOp, hq, h]
    | cons t rest =>
      rw [hq] at h
      simp [applyOp, hq, h]

theorem mem_shuffle_inline (fin q : List Nat) (j i : Nat) :
    (i ∈ fin ++ [j] ∨ i ∈ q) ↔ (i ∈ fin ∨ i ∈ q ∨ i ∈ [j]) := by
  simp [List.mem_append]
  tauto

theorem mem_shuffle_queued (fin q : List Nat) (j i : Nat) :
    (i ∈ fin ∨ i ∈ q ++ [j]) ↔ (i ∈ fin ∨ i ∈ q ∨ i ∈ [j]) := by
  simp [List.mem_append]

theorem mem_shuffle_pop (fin q : List Nat) (j i : Nat) :
    (i ∈ fin ++ [j] ∨ i ∈ q) ↔ (i ∈ fin ∨ i ∈ j :: q ∨ i ∈ ([] : List Nat)) := by
  simp [List.mem_append, List.mem_cons]
  tauto

theorem applyOp_mem_iff (s : CoreState E) (op : Op E) (i : Nat) :
    (i ∈ (applyOp s op).finished ∨ i ∈ queueIds (applyOp s op))
      ↔ (i ∈ s.finished ∨ i ∈ queueIds s ∨ i ∈ opScheduledIds op) := by
  cases op with
  | schedT t =>
    by_cases hc : s.outstandingTaskCount > s.taskSetLoadFactor
    · have hfin : (applyOp s (Op.schedT t)).finished = s.finished ++ [t.id] := by
        simp [applyOp, tsSchedule_over s t hc, runInline_state]
      have hq : queueIds (applyOp s (Op.schedT t)) = queueIds s := by
        simp [applyOp, tsSchedule_over s t hc, runInline_state, queueIds]
      rw [hfin, hq]
      exact mem_shuffle_inline s.finished (queueIds s) t.id i
    · have hfin : (applyOp s (Op.schedT t)).finished = s.finished := by
        simp [applyOp, tsSchedule_under s t hc, ScheduleResult.state,
          poolScheduleToken, poolEnqueue, packageTask]
      have hq : queueIds (applyOp s (Op.schedT t)) = queueIds s ++ [t.id] := by
        simp [applyOp, tsSchedule_under s t hc, ScheduleResult.state,
          poolScheduleToken, poolEnqueue, packageTask, queueIds]
      rw [hfin, hq]
      exact mem_shuffle_queued s.finished (queueIds s) t.id i
  | schedTForce t =>
    have hfin : (applyOp s (Op.schedTForce t)).finished = s.finished := by
      simp [applyOp, TaskSet.scheduleForce, poolScheduleTokenForce,
        poolEnqueue, packageTask]
    have hq : queueIds (applyOp s (Op.schedTForce t))
        = queueIds s ++ [t.id] := by
      simp [applyOp, TaskSet.scheduleForce, poolScheduleTokenForce,
        poolEnqueue, packageTask, queueIds]
    rw [hfin, hq]
    exact mem_shuffle_queued s.finished (queueIds s) t.id i
  | schedC t b =>
    by_cases hc : s.outstandingTaskCount > s.taskSetLoadFactor
    · have hfin : (applyOp s (Op.schedC t b)).finished
          = s.finished ++ [t.id] := by
        simp [applyOp, ctsSchedule_over s t b hc,
          runInline_state]
      have hq : queueIds (applyOp s (Op.schedC t b)) = queueIds s := by
        simp [applyOp, ctsSchedule_over s t b hc,
          runInline_state, queueIds]
      rw [hfin, hq]
      exact mem_shuffle_inline s.finished (queueIds s) t.id i
    · have hfin : (applyOp s (Op.schedC t b)).finished = s.finished := by
        simp [applyOp, ctsSchedule_under s t b hc,
          ScheduleResult.state, poolEnqueue, packageTask]
      have hq : queueIds (applyOp s (Op.schedC t b))
          = queueIds s ++ [t.id] := by
        simp [applyOp, ctsSchedule_under s t b hc,
          ScheduleResult.state, poolEnqueue, packageTask, queueIds]
      rw [hfin, hq]
      exact mem_shuffle_queued s.finished (queueIds s) t.id i
  | schedCForce t =>
    have hfin : (applyOp s (Op.schedCForce t)).finished = s.finished := by
      simp [applyOp, ConcurrentTaskSet.scheduleForce, poolScheduleForce,
        poolEnqueue, packageTask]
    have hq : queueIds (applyOp s (Op.schedCForce t))
        = queueIds s ++ [t.id] := by
      simp [applyOp, ConcurrentTaskSet.scheduleForce, poolScheduleForce,
        poolEnqueue, packageTask, queueIds]
    rw [hfin, hq]
    exact mem_shuffle_queued s.finished (queueIds s) t.id i
  | poolStep =>
    cases hq : s.queue with
    | nil => simp [applyOp, hq, queueIds, opScheduledIds]
    | cons t rest =>
      have hfin : (applyOp s Op.poolStep).finished = s.finished ++ [t.id] := by
        simp [applyOp, hq]
      have hq2 : queueIds (applyOp s Op.poolStep) = rest.map Task.id := by
        simp [applyOp, hq, queueIds]
      have hq3 : queueIds s = t.id :: rest.map Task.id := by
        simp [queueIds, hq]
      rw [hfin, hq2, hq3]
      exact mem_shuffle_pop s.finished (rest.map Task.id) t.id i

theorem applyOp_eventBalance (s : CoreState E) (op : Op E) (i : Nat)
    (h : s.events.count (CounterEvent.inc i)
          = s.events.count (CounterEvent.dec i) + (queueIds s).count i) :
    (applyOp s op).events.count (CounterEvent.inc i)
      = (applyOp s op).events.count (CounterEvent.dec i)
        + (queueIds (applyOp s op)).count i := by
  cases op with
  | schedT t =>
    by_cases hc : s.outstandingTaskCount > s.taskSetLoadFactor
    · simpa [applyOp, tsSchedule_over s t hc, runInline_state, queueIds]
        using h
    · by_cases hti : t.id = i <;>
        simp [applyOp, tsSchedule_under s t hc, ScheduleResult.state,
          poolScheduleToken, poolEnqueue, packageTask, queueIds,
          List.count_append, List.count_cons, hti, h] <;>
        omega
  | schedTForce t =>
    by_cases hti : t.id = i <;>
      simp [applyOp, TaskSet.scheduleForce, poolScheduleTokenForce,
        poolEnqueue, packageTask, queueIds, List.count_append,
        List.count_cons, hti, h] <;>
      omega
  | schedC t b =>
    by_cases hc : s.outstandingTaskCount > s.taskSetLoadFactor
    · simpa [applyOp, ctsSchedule_over s t b hc,
        runInline_state, queueIds] using h
    · by_cases hti : t.id = i <;>
        simp [applyOp, ctsSchedule_under s t b hc,
          ScheduleResult.state, poolEnqueue, packageTask, queueIds,
          List.count_append, List.count_cons, hti, h] <;>
        omega
  | schedCForce t =>
    by_cases hti : t.id = i <;>
      simp [applyOp, ConcurrentTaskSet.scheduleForce, poolScheduleForce,
        poolEnqueue, packageTask, queueIds, List.count_append,
        List.count_cons, hti, h] <;>
      omega
  | poolStep =>
    cases hq : s.queue with
    | nil => simpa [applyOp, hq, queueIds] using h
    | cons t rest =>
      rw [queueIds, hq] at h
      by_cases hti : t.id = i <;>
        simp [applyOp, hq, queueIds, List.count_append, List.count_cons,
          hti] <;>
        simp [List.count_cons, hti] at h <;>
        omega

theorem applyOps_pres (P : CoreState E → Prop)
    (hstep : ∀ s op, P s → P (applyOp s op)) :
    ∀ (ops : List (Op E)) (s : CoreState E), P s → P (applyOps s ops) := by
  intro ops
  induction ops with
  | nil => intro s h; simpa [applyOps_nil] using h
  | cons op ops ih =>
    intro s h
    rw [applyOps_cons]
    exact ih (applyOp s op) (hstep s op h)

theorem applyOps_loadFactor (ops : List (Op E)) : ∀ s : CoreState E,
    (applyOps s ops).taskSetLoadFactor = s.taskSetLoadFactor := by
  induction ops with
  | nil => intro s; rw [applyOps_nil]
  | cons op ops ih =>
    intro s
    rw [applyOps_cons, ih, applyOp_loadFactor]

theorem applyOps_tokenOwner (ops : List (Op E)) : ∀ s : CoreState E,
    (applyOps s ops).tokenOwner = s.tokenOwner := by
  induction ops with
  | nil => intro s; rw [applyOps_nil]
  | cons op ops ih =>
    intro s
    rw [applyOps_cons, ih, applyOp_tokenOwner]

theorem applyOps_countEqLen (ops : List (Op E)) (s : CoreState E)
    (h : s.outstandingTaskCount = s.queue.length) :
    (applyOps s ops).outstandingTaskCount = (applyOps s ops).queue.length :=
  applyOps_pres
    (fun s2 => s2.outstandingTaskCount = s2.queue.length)
    (fun s2 op h2 => applyOp_countEqLen s2 op h2) ops s h

theorem applyOps_eventBalance (ops : List (Op E)) (s : CoreState E) (i : Nat)
    (h : s.events.count (CounterEvent.inc i)
          = s.events.count (CounterEvent.dec i) + (queueIds s).count i) :
    (applyOps s ops).events.count (CounterEvent.inc i)
      = (applyOps s ops).events.count (CounterEvent.dec i)
        + (queueIds (applyOps s ops)).count i :=
  applyOps_pres
    (fun s2 => s2.events.count (CounterEvent.inc i)
      = s2.events.count (CounterEvent.dec i) + (queueIds s2).count i)
    (fun s2 op h2 => applyOp_eventBalance s2 op i h2) ops s h

theorem mem_after_ops : ∀ (ops : List (Op E)) (s : CoreState E) (i : Nat),
    (i ∈ s.finished ∨ i ∈ queueIds s ∨ i ∈ scheduledIds ops) →
    (i ∈ (applyOps s ops).finished ∨ i ∈ queueIds (applyOps s ops)) := by
  intro ops
  induction ops with
  | nil =>
    intro s i h
    rw [applyOps_nil]
    rcases h with h | h | h
    · exact Or.inl h
    · exact Or.inr h
    · cases h
  | cons op ops ih =>
    intro s i h
    rw [applyOps_cons]
    apply ih
    rcases h with h | h | h
    · rcases (applyOp_mem_iff s op i).mpr (Or.inl h) with h2 | h2
      · exact Or.inl h2
      · exact Or.inr (Or.inl h2)
    · rcases (applyOp_mem_iff s op i).mpr (Or.inr (Or.inl h)) with h2 | h2
      · exact Or.inl h2
      · exact Or.inr (Or.inl h2)
    · rcases List.mem_append.mp (by simpa [scheduledIds] using h) with h2 | h2
      · rcases (applyOp_mem_iff s op i).mpr (Or.inr (Or.inr h2)) with h3 | h3
        · exact Or.inl h3
        · exact Or.inr (Or.inl h3)
      · exact Or.inr (Or.inr h2)

theorem count_inc_map_dec (ids : List Nat) (i : Nat) :
    (ids.map (fun j => CounterEvent.dec j)).count (CounterEvent.inc i) = 0 := by
  induction ids with
  | nil => simp
  | cons j ids ih => simp [List.count_cons, ih]

theorem count_dec_map_dec (ids : List Nat) (i : Nat) :
    (ids.map (fun j => CounterEvent.dec j)).count (CounterEvent.dec i)
      = ids.count i := by
  induction ids with
  | nil => simp
  | cons j ids ih => by_cases h : j = i <;> simp [List.count_cons, ih, h]

theorem map_dec_queue (q : List (Task E)) :
    q.map (fun t => CounterEvent.dec t.id)
      = (q.map Task.id).map (fun j => CounterEvent.dec j) := by
  simp [List.map_map, Function.comp]

theorem wait_after_ops_count (owner wc mult : Nat) (ops : List (Op E)) :
    (TaskSetBase.wait
        (applyOps (mkTaskSet E owner wc mult) ops)).1.outstandingTaskCount
      = 0 := by
  rw [wait_count]
  have h := applyOps_countEqLen ops (mkTaskSet E owner wc mult)
    (by simp [mkTaskSet])
  omega

theorem wait_after_ops_mem (owner wc mult : Nat) (ops : List (Op E)) :
    ∀ i ∈ scheduledIds ops,
      i ∈ (TaskSetBase.wait (applyOps (mkTaskSet E owner wc mult) ops)).1.finished := by
  intro i hi
  rw [wait_finished]
  have h := mem_after_ops ops (mkTaskSet E owner wc mult) i
    (Or.inr (Or.inr hi))
  rcases h with h | h
  · exact List.mem_append.mpr (Or.inl h)
  · exact List.mem_append.mpr (Or.inr h)

/-- A task that completes normally. -/
def exOk : Task Nat := { id := 7, run := Except.ok () }

/-- A task that raises failure `42`. -/
def exErr : Task Nat := { id := 9, run := Except.error 42 }

/-- A second failing task, raising the distinct failure `43`. -/
def exErr2 : Task Nat := { id := 11, run := Except.error 43 }

/-- A state whose outstanding count (3) is above its load threshold (2). -/
def exBusy : CoreState Nat :=
  { outstandingTaskCount := 3
    taskSetLoadFactor := 2
    exceptionSlot := none
    queue := []
    finished := []
    events := []
    tokenOwner := 5 }

/-- A state whose outstanding count (0) is below its load threshold (8). -/
def exIdle : CoreState Nat :=
  { outstandingTaskCount := 0
    taskSetLoadFactor := 8
    exceptionSlot := none
    queue := []
    finished := []
    events := []
    tokenOwner := 5 }

/-- A batch of three enqueued tasks, two of which fail, with consistent
accounting (count = queue length) and an empty exception slot. -/
def exBatch : CoreState Nat :=
  { outstandingTaskCount := 3
    taskSetLoadFactor := 8
    exceptionSlot := none
    queue := [exOk, exErr, exErr2]
    finished := []
    events := [CounterEvent.inc 7, CounterEvent.inc 9, CounterEvent.inc 11]
    tokenOwner := 5 }

/-- A linearized run: two admitted schedules, a pool-worker step, and a forced
schedule. -/
def exOps : List (Op Nat) :=
  [Op.schedT exOk, Op.schedC exErr false, Op.poolStep, Op.schedTForce exErr2]

/-- C1: for every call to `TaskSet::schedule(f)` or
`ConcurrentTaskSet::schedule(f)` without `ForceQueuingTag`, the task runs
synchronously on the calling thread iff the outstanding count read at the
check is strictly greater than the load threshold — the threshold being
`stealingLoadMultiplier × poolWorkerCount`, fixed at construction and constant
under every operation; otherwise the packaged task is enqueued to the pool. -/
theorem admission_inline_iff_over_threshold (s s2 : CoreState E) (t : Task E)
    (b : Bool) (op : Op E) (owner wc mult : Nat) :
    ((TaskSet.schedule s t).ranInline = true
      ↔ s.outstandingTaskCount > s.taskSetLoadFactor)
    ∧ ((ConcurrentTaskSet.schedule s t b).ranInline = true
      ↔ s.outstandingTaskCount > s.taskSetLoadFactor)
    ∧ (s.outstandingTaskCount ≤ s.taskSetLoadFactor →
        TaskSet.schedule s t
          = ScheduleResult.queued (poolScheduleToken (packageTask s t) t)
        ∧ (ScheduleResult.state (ConcurrentTaskSet.schedule s t b)).queue
          = s.queue ++ [t])
    ∧ (mkTaskSet E owner wc mult).taskSetLoadFactor = mult * wc
    ∧ (applyOp s2 op).taskSetLoadFactor = s2.taskSetLoadFactor := by
  refine ⟨?_, ?_, ?_, by simp [mkTaskSet], applyOp_loadFactor s2 op⟩
  · by_cases hc : s.outstandingTaskCount > s.taskSetLoadFactor
    · simp [tsSchedule_over s t hc, runInline_ranInline, hc]
    · simp [tsSchedule_under s t hc, ScheduleResult.ranInline, hc]
  · by_cases hc : s.outstandingTaskCount > s.taskSetLoadFactor
    · simp [ctsSchedule_over s t b hc, runInline_ranInline, hc]
    · simp [ctsSchedule_under s t b hc,
        ScheduleResult.ranInline, hc]
  · intro hle
    have hc : ¬ s.outstandingTaskCount > s.taskSetLoadFactor := by omega
    exact ⟨tsSchedule_under s t hc, by
      simp [ctsSchedule_under s t b hc, ScheduleResult.state,
        poolEnqueue, packageTask]⟩

/-- Witness for C1: at a state with count 3 over threshold 2, the schedule
call runs the task inline. -/
theorem admission_inline_iff_over_threshold_witness :
    (TaskSet.schedule exBusy exOk).ranInline = true :=
  (admission_inline_iff_over_threshold exBusy exIdle exOk false Op.poolStep
    5 2 4).1.mpr (by decide)

/-- C2 is false on the code as stated: `TaskSet::schedule` routes an
over-threshold call to inline execution of the raw closure `f()` without going
through `packageTask`, so OutstandingCount is never incremented (nor
decremented) for that task: at this concrete input the call runs inline, the
counter-event trace stays empty and the counter still reads 3 throughout. -/
theorem inline_schedule_never_touches_counter :
    (TaskSet.schedule exBusy exOk).ranInline = true
    ∧ (ScheduleResult.state (TaskSet.schedule exBusy exOk)).events = []
    ∧ (ScheduleResult.state
        (TaskSet.schedule exBusy exOk)).outstandingTaskCount = 3 := by
  decide

/-- C2 (amended): every task handed to the pool has OutstandingCount
incremented exactly once before the hand-off, and decremented exactly once
when the packaged task finishes, by success or by failure; a task routed to
inline execution touches the counter not at all (no increment and no
decrement); consequently, once a batch is drained, every increment has exactly
one matching decrement. -/
theorem increment_decrement_discipline (s : CoreState E) (t : Task E)
    (b : Bool) (i owner wc mult : Nat) (ops : List (Op E))
    (hle : s.outstandingTaskCount ≤ s.taskSetLoadFactor) :
    (ScheduleResult.state (TaskSet.schedule s t)).events
      = s.events ++ [CounterEvent.inc t.id]
    ∧ (ScheduleResult.state (TaskSet.schedule s t)).outstandingTaskCount
      = s.outstandingTaskCount + 1
    ∧ (ScheduleResult.state (ConcurrentTaskSet.schedule s t b)).events
      = s.events ++ [CounterEvent.inc t.id]
    ∧ (runPackaged s t).events = s.events ++ [CounterEvent.dec t.id]
    ∧ (runPackaged s t).outstandingTaskCount = s.outstandingTaskCount - 1
    ∧ (∀ s3 : CoreState E, s3.outstandingTaskCount > s3.taskSetLoadFactor →
        (ScheduleResult.state (TaskSet.schedule s3 t)).events = s3.events)
    ∧ ((TaskSetBase.wait
          (applyOps (mkTaskSet E owner wc mult) ops)).1.events.count
            (CounterEvent.inc i)
        = (TaskSetBase.wait
            (applyOps (mkTaskSet E owner wc mult) ops)).1.events.count
              (CounterEvent.dec i)) := by
  have hc : ¬ s.outstandingTaskCount > s.taskSetLoadFactor := by omega
  refine ⟨?_, ?_, ?_, runPackaged_events s t, runPackaged_count s t, ?_, ?_⟩
  · simp [tsSchedule_under s t hc, ScheduleResult.state,
      poolScheduleToken, poolEnqueue, packageTask]
  · simp [tsSchedule_under s t hc, ScheduleResult.state,
      poolScheduleToken, poolEnqueue, packageTask]
  · simp [ctsSchedule_under s t b hc, ScheduleResult.state,
      poolEnqueue, packageTask]
  · intro s3 hover
    simp [tsSchedule_over s3 t hover, runInline_state]
  · have hbal := applyOps_eventBalance ops (mkTaskSet E owner wc mult) i
      (by simp [mkTaskSet, queueIds])
    rw [wait_events, map_dec_queue, List.count_append, List.count_append,
      count_inc_map_dec, count_dec_map_dec]
    rw [queueIds] at hbal
    omega

/-- Witness for C2 (amended) at concrete inputs: scheduling below threshold
appends exactly one increment event. -/
theorem increment_decrement_discipline_witness :
    (ScheduleResult.state (TaskSet.schedule exIdle exOk)).events
      = exIdle.events ++ [CounterEvent.inc exOk.id] :=
  (increment_decrement_discipline exIdle exOk false 7 5 2 4 exOps
    (by decide)).1

/-- C3: for any sequence of schedule calls (interleaved arbitrarily with
pool-worker steps) followed by `wait`, OutstandingCount is exactly 0
immediately after `wait` returns, and every task scheduled on the set before
the wait call has finished executing. -/
theorem wait_drains_and_completes (owner wc mult : Nat) (ops : List (Op E)) :
    (TaskSetBase.wait
        (applyOps (mkTaskSet E owner wc mult) ops)).1.outstandingTaskCount = 0
    ∧ ∀ i ∈ scheduledIds ops,
        i ∈ (TaskSetBase.wait
              (applyOps (mkTaskSet E owner wc mult) ops)).1.finished :=
  ⟨wait_after_ops_count owner wc mult ops, wait_after_ops_mem owner wc mult ops⟩

/-- Witness for C3 on a concrete run of four schedules and one worker step. -/
theorem wait_drains_and_completes_witness :
    (TaskSetBase.wait
        (applyOps (mkTaskSet Nat 5 2 4) exOps)).1.outstandingTaskCount = 0
    ∧ (9 : Nat) ∈ (TaskSetBase.wait
        (applyOps (mkTaskSet Nat 5 2 4) exOps)).1.finished := by
  have h := @wait_drains_and_completes Nat 5 2 4 exOps
  exact ⟨h.1, h.2 9 (by decide)⟩

/-- C4: `schedule(f, ForceQueuingTag)` always enqueues the packaged task
(recording the increment) and never executes anything inline on the calling
thread, whatever the outstanding count is relative to the threshold. -/
theorem force_queuing_always_enqueues (s : CoreState E) (t : Task E) :
    (TaskSet.scheduleForce s t).queue = s.queue ++ [t]
    ∧ (TaskSet.scheduleForce s t).finished = s.finished
    ∧ (TaskSet.scheduleForce s t).events
      = s.events ++ [CounterEvent.inc t.id]
    ∧ (ConcurrentTaskSet.scheduleForce s t).queue = s.queue ++ [t]
    ∧ (ConcurrentTaskSet.scheduleForce s t).finished = s.finished
    ∧ (ConcurrentTaskSet.scheduleForce s t).events
      = s.events ++ [CounterEvent.inc t.id] := by
  simp [TaskSet.scheduleForce, ConcurrentTaskSet.scheduleForce,
    poolScheduleTokenForce, poolScheduleForce, poolEnqueue, packageTask]

/-- Witness for C4 at a state above threshold: the forced schedule still
enqueues rather than running inline. -/
theorem force_queuing_always_enqueues_witness :
    (TaskSet.scheduleForce exBusy exOk).queue = exBusy.queue ++ [exOk]
    ∧ (TaskSet.scheduleForce exBusy exOk).finished = exBusy.finished :=
  ⟨(force_queuing_always_enqueues exBusy exOk).1,
    (force_queuing_always_enqueues exBusy exOk).2.1⟩

/-- C5: a failure raised by a closure routed to inline execution propagates
synchronously out of the `schedule` call itself, and the exception slot is not
involved: it is left exactly as it was (and no counter event occurs). -/
theorem inline_failure_propagates (s : CoreState E) (t : Task E) (e : E)
    (b : Bool) (he : t.run = Except.error e)
    (hover : s.outstandingTaskCount > s.taskSetLoadFactor) :
    TaskSet.schedule s t
      = ScheduleResult.inlineThrew e
          { s with finished := s.finished ++ [t.id] }
    ∧ ConcurrentTaskSet.schedule s t b
      = ScheduleResult.inlineThrew e
          { s with finished := s.finished ++ [t.id] }
    ∧ (ScheduleResult.state (TaskSet.schedule s t)).exceptionSlot
      = s.exceptionSlot
    ∧ (ScheduleResult.state (TaskSet.schedule s t)).events = s.events := by
  refine ⟨?_, ?_, ?_, ?_⟩
  · rw [tsSchedule_over s t hover]
    simp [runInline, he]
  · rw [ctsSchedule_over s t b hover]
    simp [runInline, he]
  · rw [tsSchedule_over s t hover, runInline_state]
  · rw [tsSchedule_over s t hover, runInline_state]

/-- Witness for C5: the failing task scheduled on the busy state propagates
failure `42` out of `schedule` and leaves the (empty) slot untouched. -/
theorem inline_failure_propagates_witness :
    TaskSet.schedule exBusy exErr
      = ScheduleResult.inlineThrew 42
          { exBusy with finished := exBusy.finished ++ [exErr.id] } :=
  (inline_failure_propagates exBusy exErr 42 false (by decide) (by decide)).1

/-- C6: with an empty slot and consistent accounting, a drain re-raises
exactly the first failure stored by the batch (later failures are discarded:
the slot holds at most one), a batch with at least one failure does re-raise
one, the slot is cleared by the re-raise so a second `wait` on the fresh state
re-raises nothing, and a draining `tryWait` (bound at least the backlog)
performs the same single re-raise and clearing. -/
theorem first_failure_wins_and_clears (s : CoreState E) (k : Nat)
    (hempty : s.exceptionSlot = none)
    (hlen : s.outstandingTaskCount = s.queue.length) :
    (TaskSetBase.wait s).2 = firstError s.queue
    ∧ ((∃ t ∈ s.queue, (Task.failure t).isSome = true) →
        ((TaskSetBase.wait s).2).isSome = true)
    ∧ (TaskSetBase.wait s).1.exceptionSlot = none
    ∧ (TaskSetBase.wait (TaskSetBase.wait s).1).2 = none
    ∧ (s.queue.length ≤ k →
        (TaskSetBase.tryWait s k).2.2 = true
        ∧ (TaskSetBase.tryWait s k).2.1 = firstError s.queue
        ∧ (TaskSetBase.tryWait s k).1.exceptionSlot = none) := by
  have h1 : (TaskSetBase.wait s).2 = firstError s.queue := by
    rw [wait_raised, hempty]
    simp [slotOr]
  refine ⟨h1, ?_, wait_slot s, ?_, ?_⟩
  · intro hex
    rw [h1]
    exact firstError_isSome s.queue hex
  · rw [wait_raised, wait_slot, wait_queue]
    simp [slotOr, firstError]
  · intro hk
    have htake : s.queue.take k = s.queue := List.take_of_length_le hk
    have hz : (stealUpTo s k).outstandingTaskCount = 0 := by
      rw [stealUpTo_count]
      omega
    have hslot : (stealUpTo s k).exceptionSlot = firstError s.queue := by
      rw [stealUpTo_slot, hempty, htake]
      simp [slotOr]
    unfold TaskSetBase.tryWait
    simp [hz, hslot]

/-- Witness for C6 on a three-task batch with two failures: the first failure
(42) is the one re-raised, and the slot comes out clear. -/
theorem first_failure_wins_and_clears_witness :
    (TaskSetBase.wait exBatch).2 = firstError exBatch.queue
    ∧ (TaskSetBase.wait exBatch).1.exceptionSlot = none :=
  ⟨(first_failure_wins_and_clears exBatch 3 (by decide) (by decide)).1,
    (first_failure_wins_and_clears exBatch 3 (by decide) (by decide)).2.2.1⟩

/-- C7: `tryWait(maxToExecute)` executes at most `maxToExecute` stolen items
on the calling thread, returns `true` iff the outstanding count reached 0
(re-raising the captured failure and clearing the slot exactly in that case,
raising nothing when it returns `false`), and `tryWait(0)` executes no task at
all. -/
theorem tryWait_bounded_and_exact (s : CoreState E) (k : Nat) :
    (TaskSetBase.tryWait s k).1.finished.length ≤ s.finished.length + k
    ∧ ((TaskSetBase.tryWait s k).2.2 = true
        ↔ (TaskSetBase.tryWait s k).1.outstandingTaskCount = 0)
    ∧ ((TaskSetBase.tryWait s k).2.2 = true →
        (TaskSetBase.tryWait s k).2.1 = (stealUpTo s k).exceptionSlot
        ∧ (TaskSetBase.tryWait s k).1.exceptionSlot = none)
    ∧ ((TaskSetBase.tryWait s k).2.2 = false →
        (TaskSetBase.tryWait s k).2.1 = none)
    ∧ (TaskSetBase.tryWait s 0).1.finished = s.finished
    ∧ ((TaskSetBase.tryWait s 0).2.2 = true
        ↔ s.outstandingTaskCount = 0) := by
  have hfin : (TaskSetBase.tryWait s k).1.finished
      = (stealUpTo s k).finished := by
    unfold TaskSetBase.tryWait
    by_cases hz : (stealUpTo s k).outstandingTaskCount = 0 <;> simp [hz]
  have hsteal0 : stealUpTo s 0 = s := rfl
  refine ⟨?_, ?_, ?_, ?_, ?_, ?_⟩
  · rw [hfin, stealUpTo_finished]
    have hlen : ((s.queue.take k).map Task.id).length ≤ k := by
      simp [List.length_take]
    simp only [List.length_append]
    omega
  · unfold TaskSetBase.tryWait
    by_cases hz : (stealUpTo s k).outstandingTaskCount = 0 <;> simp [hz]
  · unfold TaskSetBase.tryWait
    by_cases hz : (stealUpTo s k).outstandingTaskCount = 0 <;> simp [hz]
  · unfold TaskSetBase.tryWait
    by_cases hz : (stealUpTo s k).outstandingTaskCount = 0 <;> simp [hz]
  · unfold TaskSetBase.tryWait
    rw [hsteal0]
    by_cases hz : s.outstandingTaskCount = 0 <;> simp [hz]
  · unfold TaskSetBase.tryWait
    rw [hsteal0]
    by_cases hz : s.outstandingTaskCount = 0 <;> simp [hz]

/-- Witness for C7 at the three-task batch with bound 0: not done, nothing
executed, nothing raised. -/
theorem tryWait_bounded_and_exact_witness :
    (TaskSetBase.tryWait exBatch 0).1.finished = exBatch.finished
    ∧ ((TaskSetBase.tryWait exBatch 0).2.2 = true
        ↔ exBatch.outstandingTaskCount = 0) :=
  ⟨(tryWait_bounded_and_exact exBatch 0).2.2.2.2.1,
    (tryWait_bounded_and_exact exBatch 0).2.2.2.2.2⟩

/-- C8: `ConcurrentTaskSet::schedule` behaves identically with
`skipRecheck = true` and `skipRecheck = false`: the full observable outcome —
whether the closure ran inline, which task was enqueued, and the resulting
counter, queue and exception state — is the same. -/
theorem skipRecheck_no_observable_change (s : CoreState E) (t : Task E) :
    ConcurrentTaskSet.schedule s t true
      = ConcurrentTaskSet.schedule s t false := by
  by_cases hc : s.outstandingTaskCount > s.taskSetLoadFactor
  · rw [ctsSchedule_over s t true hc,
      ctsSchedule_over s t false hc]
  · rw [ctsSchedule_under s t true hc,
      ctsSchedule_under s t false hc]

/-- Witness for C8 at a concrete state and task. -/
theorem skipRecheck_no_observable_change_witness :
    ConcurrentTaskSet.schedule exIdle exOk true
      = ConcurrentTaskSet.schedule exIdle exOk false :=
  skipRecheck_no_observable_change exIdle exOk

/-- C9: the destructors of `TaskSet` and `ConcurrentTaskSet` perform `wait()`:
after destruction of a set that went through any sequence of operations, the
outstanding count is 0, every task scheduled through the object has finished,
and the deferred captured failure (the slot content, or failing that the first
failure still pending in the queue) is raised during destruction rather than
discarded. -/
theorem destructor_drains (owner wc mult : Nat) (ops : List (Op E)) :
    TaskSet.destruct (applyOps (mkTaskSet E owner wc mult) ops)
      = TaskSetBase.wait (applyOps (mkTaskSet E owner wc mult) ops)
    ∧ ConcurrentTaskSet.destruct (applyOps (mkTaskSet E owner wc mult) ops)
      = TaskSetBase.wait (applyOps (mkTaskSet E owner wc mult) ops)
    ∧ (TaskSet.destruct
        (applyOps (mkTaskSet E owner wc mult) ops)).1.outstandingTaskCount = 0
    ∧ (∀ i ∈ scheduledIds ops,
        i ∈ (TaskSet.destruct
              (applyOps (mkTaskSet E owner wc mult) ops)).1.finished)
    ∧ (TaskSet.destruct (applyOps (mkTaskSet E owner wc mult) ops)).2
        = slotOr (applyOps (mkTaskSet E owner wc mult) ops).exceptionSlot
            (firstError (applyOps (mkTaskSet E owner wc mult) ops).queue) := by
  refine ⟨rfl, rfl, ?_, ?_, ?_⟩
  · exact wait_after_ops_count owner wc mult ops
  · exact wait_after_ops_mem owner wc mult ops
  · simpa [TaskSet.destruct] using
      wait_raised (applyOps (mkTaskSet E owner wc mult) ops)

/-- Witness for C9 on the concrete run: destruction leaves the count at 0 and
the forced-scheduled failing task finished. -/
theorem destructor_drains_witness :
    (TaskSet.destruct
        (applyOps (mkTaskSet Nat 5 2 4) exOps)).1.outstandingTaskCount = 0
    ∧ (11 : Nat) ∈ (TaskSet.destruct
        (applyOps (mkTaskSet Nat 5 2 4) exOps)).1.finished := by
  have h := @destructor_drains Nat 5 2 4 exOps
  exact ⟨h.2.2.1, h.2.2.2.1 11 (by decide)⟩

/-- C10: neither `TaskSet` nor `ConcurrentTaskSet` is movable or copyable
(move construction and move assignment are deleted, which also deletes the
copy operations), and no operation of the model — schedule in any variant,
pool-worker steps, `wait`, `tryWait` — ever rebinds the producer token or the
counter/slot state to a different owning object. -/
theorem not_movable_binding_invariant (s : CoreState E) (op : Op E) (k : Nat)
    (ops : List (Op E)) :
    TaskSet.moveConstructible = false
    ∧ TaskSet.moveAssignable = false
    ∧ TaskSet.copyConstructible = false
    ∧ ConcurrentTaskSet.moveConstructible = false
    ∧ ConcurrentTaskSet.moveAssignable = false
    ∧ ConcurrentTaskSet.copyConstructible = false
    ∧ (applyOp s op).tokenOwner = s.tokenOwner
    ∧ (applyOps s ops).tokenOwner = s.tokenOwner
    ∧ (TaskSetBase.wait s).1.tokenOwner = s.tokenOwner
    ∧ (TaskSetBase.tryWait s k).1.tokenOwner = s.tokenOwner := by
  refine ⟨rfl, rfl, rfl, rfl, rfl, rfl, applyOp_tokenOwner s op,
    applyOps_tokenOwner ops s, wait_tokenOwner s, ?_⟩
  unfold TaskSetBase.tryWait
  by_cases hz : (stealUpTo s k).outstandingTaskCount = 0 <;>
    simp [hz, stealUpTo_tokenOwner]

/-- Witness for C10 on the concrete run: the token owner survives the whole
run and a wait. -/
theorem not_movable_binding_invariant_witness :
    (applyOps exBatch exOps).tokenOwner = exBatch.tokenOwner
    ∧ (TaskSetBase.wait exBatch).1.tokenOwner = exBatch.tokenOwner :=
  ⟨(not_movable_binding_invariant exBatch Op.poolStep 0 exOps).2.2.2.2.2.2.2.1,
    (not_movable_binding_invariant exBatch Op.poolStep 0
      exOps).2.2.2.2.2.2.2.2.1⟩

end Dispenso
